import Mathlib

/-!
Shallow embedding of `src/server.js` (manga-slicer-backend).

The server keeps an in-memory cache (a JS `Map` from URL to
`{ buffer, timestamp }`), sweeps it on an interval, and serves a
`GET /slice?url=...&index=...` endpoint that either returns a manifest of
slice descriptors or extracts and re-encodes one horizontal band of the
image via the `sharp` codec.

Modelling choices:
- byte buffers are `List Nat`;
- the cache `Map` is a function `String → Option CacheEntry` (JS `Map`
  has unique keys); `Map.set` is pointwise update, the sweep filters
  entries by age exactly as the `setInterval` body does;
- timestamps are `Nat` milliseconds;
- JS numbers flowing through the slice branch are `Option Int`
  (`none` models `NaN`, as produced by `parseInt` on a non-numeric
  query value); `*`, `-`, `Math.min` propagate `NaN`, `>=` is false
  when an operand is `NaN`;
- the external fetch collaborator is an explicit `FetchOutcome`
  argument (what `fetch(url)` resolved to for this request);
- the `sharp` codec collaborator is a `Codec` record: `meta` decodes a
  buffer to `(width, height)` and `extractEnc` crops/encodes a region;
  `sharp`'s extract call validates the region against the image bounds
  and rejects negative / `NaN` / out-of-range parameters, which the
  embedding reflects in `sharpExtract`;
- the handler result carries ghost observability fields (`fetchInvoked`,
  `warned`, `extractInvoked`, `buffer`) recording which collaborators ran.
-/

namespace MangaSlicer

/-- Byte buffers (`Buffer` in node). -/
abbrev ByteBuf := List Nat

/-- `SLICE_HEIGHT = 1500` (server.js line 28). -/
def SLICE_HEIGHT : Nat := 1500

/-- `CACHE_TTL = 5 * 60 * 1000` ms (server.js line 32). -/
def CACHE_TTL : Nat := 5 * 60 * 1000

/-- A cache entry `{ buffer, timestamp }` (server.js line 102). -/
structure CacheEntry where
  buffer : ByteBuf
  timestamp : Nat
deriving DecidableEq, Repr

/-- The `imageCache` map, keyed by url. -/
abbrev Cache := String → Option CacheEntry

/-- The empty cache (`new Map()`). -/
def emptyCache : Cache := fun _ => none

/-- `imageCache.set(url, entry)`. -/
def cacheSet (c : Cache) (k : String) (e : CacheEntry) : Cache :=
  fun k2 => if k2 = k then some e else c k2

/-- The janitor sweep body (server.js lines 35-42): delete every entry
with `now - value.timestamp > CACHE_TTL`, keep the rest untouched. -/
def sweep (now : Nat) (c : Cache) : Cache :=
  fun k =>
    match c k with
    | some e => if now - e.timestamp > CACHE_TTL then none else some e
    | none => none

/-! ## SliceCalculator (pure slice geometry, server.js lines 132, 147-158) -/

/-- `numSlices = Math.ceil(height / sliceHeight)` (server.js line 132,
with the slice height as a parameter; the server passes `SLICE_HEIGHT`). -/
def numSlices (height sliceH : Nat) : Nat := (height + sliceH - 1) / sliceH

/-- One slice descriptor `(index, y, height)` from the manifest loop. -/
structure SliceBand where
  index : Nat
  y : Nat
  height : Nat
deriving DecidableEq, Repr

/-- The manifest loop (server.js lines 147-158): for `i < numSlices`,
`y = i * sliceHeight`, `height = Math.min(sliceHeight, height - y)`. -/
def partitionSlices (height sliceH : Nat) : List SliceBand :=
  (List.range (numSlices height sliceH)).map fun i =>
    ⟨i, i * sliceH, min sliceH (height - i * sliceH)⟩

/-! ## Manifest construction -/

/-- JS `encodeURIComponent` unreserved characters: ASCII alphanumerics
and `- _ . ! ~ * ( )` and the apostrophe (codepoints below). -/
def isUnreservedChar (c : Char) : Bool :=
  c.isAlphanum || [45, 95, 46, 33, 126, 42, 39, 40, 41].contains c.toNat

/-- Upper-case hex digit for a value below 16. -/
def hexDigitChar (n : Nat) : Char :=
  if n < 10 then Char.ofNat (48 + n) else Char.ofNat (55 + n)

/-- `%XY` percent-encoding of one byte (`Char.ofNat 37` is the percent sign). -/
def percentEncodeByte (b : Nat) : List Char :=
  [Char.ofNat 37, hexDigitChar (b / 16), hexDigitChar (b % 16)]

/-- UTF-8 bytes of one character. -/
def utf8Bytes (c : Char) : List Nat :=
  (String.singleton c).toUTF8.toList.map (fun b => b.toNat)

/-- Encode one character as `encodeURIComponent` does. -/
def encodeChar (c : Char) : List Char :=
  if isUnreservedChar c then [c] else ((utf8Bytes c).map percentEncodeByte).flatten

/-- JS `encodeURIComponent`. -/
def encodeURIComponent (s : String) : String :=
  String.mk ((s.data.map encodeChar).flatten)

/-- The per-slice url built at server.js line 153. -/
def sliceUrl (baseUrl u : String) (i : Nat) : String :=
  baseUrl ++ "/slice?url=" ++ encodeURIComponent u ++ "&index=" ++ toString i

/-- One element of the manifest `slices` array (server.js lines 151-157). -/
structure SliceInfo where
  index : Nat
  url : String
  y : Nat
  height : Nat
  width : Nat
deriving DecidableEq, Repr

/-- The manifest JSON body (server.js lines 160-166). -/
structure Manifest where
  originalWidth : Nat
  originalHeight : Nat
  sliceHeight : Nat
  numSlices : Nat
  slices : List SliceInfo
deriving DecidableEq, Repr

/-- Build the manifest response (server.js lines 130-166). -/
def buildManifest (baseUrl u : String) (width height : Nat) : Manifest :=
  { originalWidth := width
    originalHeight := height
    sliceHeight := SLICE_HEIGHT
    numSlices := numSlices height SLICE_HEIGHT
    slices := (partitionSlices height SLICE_HEIGHT).map fun b =>
      ⟨b.index, sliceUrl baseUrl u b.index, b.y, b.height, width⟩ }

/-! ## External collaborators -/

/-- What the `fetch(url, { headers })` call resolved to for this request:
either it rejected / returned a non-ok status (the handler throws with a
message), or it delivered bytes together with the optional
`content-length` header value. -/
inductive FetchOutcome where
  | failure (message : String)
  | success (bytes : ByteBuf) (contentLength : Option Nat)
deriving DecidableEq, Repr

/-- The `sharp` codec collaborator: `meta` decodes a buffer to
`(width, height)` (`sharp(buffer).metadata()`; `none` = decode failure),
`extractEnc buf left top width height` is the cropped re-encoded jpeg
(`.extract(...).jpeg({quality: 90}).toBuffer()`), only invoked after
`sharp` has validated the region. -/
structure Codec where
  meta : ByteBuf → Option (Nat × Nat)
  extractEnc : ByteBuf → Nat → Nat → Nat → Nat → ByteBuf

/-! ## JS number semantics for the slice branch

`parseInt(index)` yields an integer or `NaN`; we carry `Option Int`
(`none` = `NaN`) through `y = sliceIndex * SLICE_HEIGHT`,
`Math.min(SLICE_HEIGHT, height - y)` and `y >= height`. -/

/-- A JS number in the slice branch: `none` models `NaN`. -/
abbrev JSNum := Option Int

/-- `a * b` with a nat constant; `NaN` propagates. -/
def jsMulNat (a : JSNum) (b : Nat) : JSNum := a.map (fun v => v * (b : Int))

/-- `a - b` with nat minuend; `NaN` propagates. -/
def jsSubOf (a : Nat) (b : JSNum) : JSNum := b.map (fun v => (a : Int) - v)

/-- `Math.min(a, b)` with nat first argument; `NaN` propagates. -/
def jsMinNat (a : Nat) (b : JSNum) : JSNum := b.map (fun v => min (a : Int) v)

/-- `a >= b`: false when `a` is `NaN`. -/
def jsGeNat (a : JSNum) (b : Nat) : Bool :=
  match a with
  | some v => (b : Int) ≤ v
  | none => false

/-! ## Error messages -/

def missingUrlMsg : String := "Missing url parameter"

def outOfBoundsMsg : String := "Slice index out of bounds"

/-- Message of the error `sharp` raises for a bad / non-integer extract
region (caught by the handler and surfaced as a 500). -/
def extractAreaMsg : String := "extract_area: bad extract area"

/-- Message of the error `sharp` raises when the buffer cannot be decoded. -/
def decodeFailMsg : String := "Input buffer contains unsupported image format"

/-- `sharp(buffer).extract({left, top, width, height})...toBuffer()`:
decodes the buffer, validates the region (all parameters integers,
non-negative offsets, positive extent, inside the image), then crops and
encodes. A `NaN` parameter or an out-of-bounds region makes the call
reject, which the handler's `catch` turns into a 500. -/
def sharpExtract (codec : Codec) (buf : ByteBuf) (left : Int) (top : JSNum)
    (w : Int) (bh : JSNum) : Except String ByteBuf :=
  match codec.meta buf with
  | none => .error decodeFailMsg
  | some (iw, ih) =>
    match top, bh with
    | some t, some b =>
      if 0 ≤ left ∧ 0 ≤ t ∧ 0 < w ∧ 0 < b ∧ left + w ≤ (iw : Int) ∧
          t + b ≤ (ih : Int) then
        .ok (codec.extractEnc buf left.toNat t.toNat w.toNat b.toNat)
      else .error extractAreaMsg
    | _, _ => .error extractAreaMsg

/-! ## The request handler -/

/-- The HTTP response of the `/slice` handler. -/
inductive Resp where
  | badRequest (err : String)
  | notFound (err : String)
  | serverError (err : String)
  | okSlice (bytes : ByteBuf)
  | okManifest (m : Manifest)
deriving DecidableEq, Repr

/-- The cache-or-fetch step, server.js lines 62-103: on a hit the stored
buffer is used, otherwise the fetch outcome is consulted; a failure is
thrown, a success is (content-length checked and) stored. -/
structure StoreResult where
  buffer : ByteBuf
  cache : Cache
  fetchInvoked : Bool
  warned : Bool

/-- Whether the content-length warning fires (server.js lines 94-96). -/
def contentLengthWarning (cl : Option Nat) (bytes : ByteBuf) : Bool :=
  match cl with
  | some n => n ≠ bytes.length
  | none => false

/-- server.js lines 62-103 as a function of the cache and the fetch
outcome for this request. -/
def imageStoreFetch (fr : FetchOutcome) (now : Nat) (cache : Cache)
    (u : String) : Except String StoreResult :=
  match cache u with
  | some entry => .ok ⟨entry.buffer, cache, false, false⟩
  | none =>
    match fr with
    | .failure msg => .error msg
    | .success bytes cl =>
      .ok ⟨bytes, cacheSet cache u ⟨bytes, now⟩, true, contentLengthWarning cl bytes⟩

/-- Result of one `/slice` request: the response, the cache afterwards,
and ghost fields recording which collaborators were invoked and which
buffer the handler operated on. -/
structure HandlerResult where
  resp : Resp
  cache : Cache
  fetchInvoked : Bool
  warned : Bool
  extractInvoked : Bool
  buffer : Option ByteBuf

/-- The response computation once the buffer is available (server.js
lines 105-167): decode metadata, then either the slice branch (lines
110-129) or the manifest branch (lines 130-166). Returns the response
and whether the `sharp` extract call was made. -/
def respond (codec : Codec) (baseUrl u : String) (buf : ByteBuf)
    (index : Option JSNum) : Resp × Bool :=
  match codec.meta buf with
  | none => (.serverError decodeFailMsg, false)
  | some (width, height) =>
    match index with
    | some p =>
      let y := jsMulNat p SLICE_HEIGHT
      let sliceH := jsMinNat SLICE_HEIGHT (jsSubOf height y)
      if jsGeNat y height then (.notFound outOfBoundsMsg, false)
      else
        match sharpExtract codec buf 0 y (width : Int) sliceH with
        | .ok out => (.okSlice out, true)
        | .error e => (.serverError e, true)
    | none => (.okManifest (buildManifest baseUrl u width height), false)

/-- The `GET /slice` handler, server.js lines 52-172.

Arguments: the codec, the manifest base url, the fetch outcome for this
request, `Date.now()`, the cache, the `url` query parameter (`none` when
absent) and the `index` query parameter (`none` when absent,
`some p` when present with `p` the `parseInt` result, `none` inside
meaning `NaN`). -/
def handleSlice (codec : Codec) (baseUrl : String) (fr : FetchOutcome)
    (now : Nat) (cache : Cache) (url : Option String)
    (index : Option JSNum) : HandlerResult :=
  match url with
  | none => ⟨.badRequest missingUrlMsg, cache, false, false, false, none⟩
  | some u =>
    match imageStoreFetch fr now cache u with
    | .error msg => ⟨.serverError msg, cache, true, false, false, none⟩
    | .ok st =>
      let r := respond codec baseUrl u st.buffer index
      ⟨r.1, st.cache, st.fetchInvoked, st.warned, r.2, some st.buffer⟩

/-! ## Concrete fixtures for witnesses -/

/-- A concrete codec for witnesses: every buffer decodes to 800 x 3200,
`extractEnc` records the crop rectangle. -/
def testCodec : Codec :=
  { meta := fun _ => some (800, 3200)
    extractEnc := fun _ l t w h => [l, t, w, h] }

/-- A concrete cache holding one entry. -/
def testCache : Cache := cacheSet emptyCache "u" ⟨[7, 7, 7], 0⟩

/-! ## Slice geometry lemmas -/

theorem numSlices_eq_succ (h s : Nat) (hh : 0 < h) (hs : 0 < s) :
    numSlices h s = (h - 1) / s + 1 := by
  unfold numSlices
  have he : h + s - 1 = (h - 1) + s := by omega
  rw [he, Nat.add_div_right _ hs]

theorem le_numSlices_mul (h s : Nat) (hh : 0 < h) (hs : 0 < s) :
    h ≤ numSlices h s * s := by
  rw [numSlices_eq_succ h s hh hs]
  have h1 : s * ((h - 1) / s) + (h - 1) % s = h - 1 := Nat.div_add_mod (h - 1) s
  have h2 : (h - 1) % s < s := Nat.mod_lt _ hs
  have h3 : ((h - 1) / s + 1) * s = s * ((h - 1) / s) + s := by ring
  rw [h3]
  generalize s * ((h - 1) / s) = m at h1 ⊢
  omega

theorem pred_numSlices_mul_lt (h s : Nat) (hh : 0 < h) (hs : 0 < s) :
    (numSlices h s - 1) * s < h := by
  rw [numSlices_eq_succ h s hh hs]
  have h1 : s * ((h - 1) / s) + (h - 1) % s = h - 1 := Nat.div_add_mod (h - 1) s
  have h3 : (h - 1) / s + 1 - 1 = (h - 1) / s := Nat.add_sub_cancel _ 1
  rw [h3, Nat.mul_comm]
  generalize s * ((h - 1) / s) = m at h1 ⊢
  omega

theorem mul_le_pred_of_lt_numSlices (h s i : Nat)
    (hi : i < numSlices h s) : i * s ≤ (numSlices h s - 1) * s := by
  exact Nat.mul_le_mul_right s (by omega)

/-- A non-last band has height exactly `s`. -/
theorem band_full_of_not_last (h s i : Nat) (hh : 0 < h) (hs : 0 < s)
    (hi : i + 1 < numSlices h s) : min s (h - i * s) = s := by
  have key : (i + 1) * s ≤ (numSlices h s - 1) * s :=
    Nat.mul_le_mul_right s (by omega)
  have h2 := pred_numSlices_mul_lt h s hh hs
  have h3 : (i + 1) * s = i * s + s := by ring
  rw [h3] at key
  generalize i * s = m at key ⊢
  generalize (numSlices h s - 1) * s = p at key h2
  omega

/-- Every band in range has positive height. -/
theorem band_pos (h s i : Nat) (hh : 0 < h) (hs : 0 < s)
    (hi : i < numSlices h s) : 0 < min s (h - i * s) := by
  have key := mul_le_pred_of_lt_numSlices h s i hi
  have h2 := pred_numSlices_mul_lt h s hh hs
  generalize i * s = m at key ⊢
  generalize (numSlices h s - 1) * s = p at key h2
  omega

/-- Partial sums of the band heights. -/
theorem sum_min_range (s h : Nat) (n : Nat) :
    ((List.range n).map (fun i => min s (h - i * s))).sum = min h (n * s) := by
  induction n with
  | zero => simp
  | succ n ih =>
    rw [List.range_succ, List.map_append, List.sum_append, ih]
    simp only [List.map_cons, List.map_nil, List.sum_cons, List.sum_nil]
    have h3 : (n + 1) * s = n * s + s := by ring
    rw [h3]
    generalize n * s = k
    omega

/-- The band heights sum to the full image height. -/
theorem sum_partition_heights (h s : Nat) (hh : 0 < h) (hs : 0 < s) :
    ((partitionSlices h s).map SliceBand.height).sum = h := by
  unfold partitionSlices
  rw [List.map_map]
  have he : (SliceBand.height ∘ fun i => SliceBand.mk i (i * s) (min s (h - i * s)))
      = fun i => min s (h - i * s) := rfl
  rw [he, sum_min_range s h (numSlices h s)]
  exact Nat.min_eq_left (le_numSlices_mul h s hh hs)

/-- `numSlices` is the ceiling of the rational division. -/
theorem numSlices_eq_ceil (h s : Nat) (hh : 0 < h) (hs : 0 < s) :
    numSlices h s = ⌈(h : ℚ) / (s : ℚ)⌉₊ := by
  have hs0 : (0 : ℚ) < (s : ℚ) := by exact_mod_cast hs
  have hn0 : numSlices h s ≠ 0 := by
    rw [numSlices_eq_succ h s hh hs]; exact Nat.succ_ne_zero _
  symm
  rw [Nat.ceil_eq_iff hn0]
  constructor
  · rw [lt_div_iff₀ hs0]
    exact_mod_cast pred_numSlices_mul_lt h s hh hs
  · rw [div_le_iff₀ hs0]
    exact_mod_cast le_numSlices_mul h s hh hs

/-! ## Claim C1: the manifest slices partition the image height -/

theorem partitionSlices_length (h s : Nat) :
    (partitionSlices h s).length = numSlices h s := by
  simp [partitionSlices]

theorem partitionSlices_get (h s i : Nat)
    (hi : i < (partitionSlices h s).length) :
    (partitionSlices h s).get ⟨i, hi⟩ = ⟨i, i * s, min s (h - i * s)⟩ := by
  simp [partitionSlices]

/-- C1: for every `height > 0` and `sliceHeight > 0`, the slice
descriptors computed for the manifest partition `[0, height)` exactly:
there are `numSlices = ceil(height / sliceHeight)` of them, descriptor
`i` has `yOffset = i * sliceHeight`, offsets are contiguous (each next
offset equals the previous offset plus the previous band height, so no
gaps and no overlaps), every band height is positive, and the band
heights sum to `height`. -/
theorem c1_slice_partition (h s : Nat) (hh : 0 < h) (hs : 0 < s) :
    (partitionSlices h s).length = numSlices h s ∧
    numSlices h s = ⌈(h : ℚ) / (s : ℚ)⌉₊ ∧
    (∀ i (hi : i < (partitionSlices h s).length),
      ((partitionSlices h s).get ⟨i, hi⟩).index = i ∧
      ((partitionSlices h s).get ⟨i, hi⟩).y = i * s) ∧
    (∀ b ∈ partitionSlices h s, 0 < b.height) ∧
    (∀ i (hi : i + 1 < (partitionSlices h s).length),
      ((partitionSlices h s).get ⟨i + 1, hi⟩).y =
        ((partitionSlices h s).get ⟨i, Nat.lt_of_succ_lt hi⟩).y +
          ((partitionSlices h s).get ⟨i, Nat.lt_of_succ_lt hi⟩).height) ∧
    ((partitionSlices h s).map SliceBand.height).sum = h := by
  refine ⟨partitionSlices_length h s, numSlices_eq_ceil h s hh hs, ?_, ?_, ?_,
    sum_partition_heights h s hh hs⟩
  · intro i hi
    rw [partitionSlices_get]
    exact ⟨rfl, rfl⟩
  · intro b hb
    simp only [partitionSlices, List.mem_map, List.mem_range] at hb
    obtain ⟨i, hiRange, rfl⟩ := hb
    exact band_pos h s i hh hs hiRange
  · intro i hi
    simp only [partitionSlices_get]
    show (i + 1) * s = i * s + min s (h - i * s)
    have hin : i + 1 < numSlices h s := by
      have := partitionSlices_length h s; omega
    rw [band_full_of_not_last h s i hh hs hin]
    ring

/-- Witness for C1 at the spec scenario height 3200, slice height 1500. -/
theorem c1_slice_partition_witness :
    (partitionSlices 3200 1500).length = numSlices 3200 1500 ∧
    ((partitionSlices 3200 1500).map SliceBand.height).sum = 3200 :=
  ⟨(c1_slice_partition 3200 1500 (by decide) (by decide)).1,
   (c1_slice_partition 3200 1500 (by decide) (by decide)).2.2.2.2.2⟩

/-! ## Claim C7: the janitor sweep -/

/-- C7: a janitor sweep removes exactly the cache entries with
`now - storedAt > TTL`; every other entry (key, buffer and timestamp) is
left unchanged, and after the sweep every remaining entry satisfies
`now - storedAt <= TTL`. -/
theorem c7_sweep_exact (now : Nat) (c : Cache) (k : String) (e : CacheEntry) :
    (sweep now c k = some e ↔
      c k = some e ∧ now - e.timestamp ≤ CACHE_TTL) ∧
    (sweep now c k = none ↔
      c k = none ∨ ∃ e2, c k = some e2 ∧ now - e2.timestamp > CACHE_TTL) := by
  simp only [sweep]
  cases hc : c k with
  | none => simp
  | some e2 =>
    by_cases hstale : now - e2.timestamp > CACHE_TTL
    · simp only [if_pos hstale]
      constructor
      · constructor
        · intro habs; cases habs
        · rintro ⟨he, hle⟩
          injection he with he2; subst he2; omega
      · constructor
        · intro _; exact Or.inr ⟨e2, rfl, hstale⟩
        · intro _; trivial
    · simp only [if_neg hstale]
      constructor
      · constructor
        · intro he; refine ⟨he, ?_⟩
          injection he with he2; subst he2; omega
        · rintro ⟨he, _⟩; exact he
      · constructor
        · intro habs; cases habs
        · rintro (habs | ⟨e3, he3, hgt⟩)
          · cases habs
          · injection he3 with h3; subst h3; omega

/-- Witness for C7 at a concrete sweep: one fresh and one stale entry. -/
theorem c7_sweep_exact_witness :
    (sweep 300001 testCache "u" = some ⟨[7, 7, 7], 0⟩ ↔
      testCache "u" = some ⟨[7, 7, 7], 0⟩ ∧ 300001 - 0 ≤ CACHE_TTL) ∧
    (sweep 300001 testCache "u" = none ↔
      testCache "u" = none ∨
        ∃ e2, testCache "u" = some e2 ∧ 300001 - e2.timestamp > CACHE_TTL) :=
  c7_sweep_exact 300001 testCache "u" ⟨[7, 7, 7], 0⟩

/-! ## Handler lemmas: cache hit and cache miss -/

theorem handleSlice_hit (codec : Codec) (baseUrl : String)
    (fr : FetchOutcome) (now : Nat) (cache : Cache) (u : String)
    (e : CacheEntry) (index : Option JSNum) (hc : cache u = some e) :
    handleSlice codec baseUrl fr now cache (some u) index =
      ⟨(respond codec baseUrl u e.buffer index).1, cache, false, false,
        (respond codec baseUrl u e.buffer index).2, some e.buffer⟩ := by
  simp only [handleSlice, imageStoreFetch, hc]

theorem handleSlice_miss_failure (codec : Codec) (baseUrl : String)
    (msg : String) (now : Nat) (cache : Cache) (u : String)
    (index : Option JSNum) (hmiss : cache u = none) :
    handleSlice codec baseUrl (.failure msg) now cache (some u) index =
      ⟨.serverError msg, cache, true, false, false, none⟩ := by
  simp only [handleSlice, imageStoreFetch, hmiss]

theorem handleSlice_miss_success (codec : Codec) (baseUrl : String)
    (bytes : ByteBuf) (cl : Option Nat) (now : Nat) (cache : Cache)
    (u : String) (index : Option JSNum) (hmiss : cache u = none) :
    handleSlice codec baseUrl (.success bytes cl) now cache (some u) index =
      ⟨(respond codec baseUrl u bytes index).1,
        cacheSet cache u ⟨bytes, now⟩, true, contentLengthWarning cl bytes,
        (respond codec baseUrl u bytes index).2, some bytes⟩ := by
  simp only [handleSlice, imageStoreFetch, hmiss]

/-! ## Claim C3: cache hit within TTL serves the stored buffer -/

/-- C3: for a key with a cache entry stored within the last TTL, a
request for that key operates on the stored buffer, does not invoke the
external fetch collaborator, and leaves the cache unchanged. -/
theorem c3_cache_hit_no_fetch (codec : Codec) (baseUrl : String)
    (fr : FetchOutcome) (now : Nat) (cache : Cache) (u : String)
    (e : CacheEntry) (index : Option JSNum)
    (hc : cache u = some e) (hfresh : now - e.timestamp ≤ CACHE_TTL) :
    (handleSlice codec baseUrl fr now cache (some u) index).fetchInvoked
        = false ∧
    (handleSlice codec baseUrl fr now cache (some u) index).buffer
        = some e.buffer ∧
    (handleSlice codec baseUrl fr now cache (some u) index).cache = cache := by
  rw [handleSlice_hit codec baseUrl fr now cache u e index hc]
  exact ⟨rfl, rfl, rfl⟩

/-- Witness for C3: a fresh entry is served without a fetch. -/
theorem c3_cache_hit_no_fetch_witness :
    (handleSlice testCodec "b" (.failure "down") 1000 testCache
        (some "u") none).fetchInvoked = false ∧
    (handleSlice testCodec "b" (.failure "down") 1000 testCache
        (some "u") none).buffer = some [7, 7, 7] ∧
    (handleSlice testCodec "b" (.failure "down") 1000 testCache
        (some "u") none).cache = testCache :=
  c3_cache_hit_no_fetch testCodec "b" (.failure "down") 1000 testCache "u"
    ⟨[7, 7, 7], 0⟩ none rfl (by decide)

/-! ## Claim C2: stale entries and access -/

/-- C2 as stated is false: the handler checks only `imageCache.has(url)`
(server.js line 63), so an entry older than TTL that the janitor has not
yet swept is still served and the external fetch is not invoked. Concrete
counterexample: an entry stored at time 0, accessed at `CACHE_TTL + 1`. -/
theorem c2_counterexample :
    300001 - 0 > CACHE_TTL ∧
    (handleSlice testCodec "b" (.success [9] none) 300001 testCache
        (some "u") none).fetchInvoked = false ∧
    (handleSlice testCodec "b" (.success [9] none) 300001 testCache
        (some "u") none).buffer = some [7, 7, 7] := by
  refine ⟨by decide, ?_, ?_⟩ <;>
    rw [handleSlice_hit testCodec "b" (.success [9] none) 300001 testCache
      "u" ⟨[7, 7, 7], 0⟩ none rfl]

/-- C2 amended: on access the store serves any present entry regardless
of its age — a stale entry the janitor has not yet swept is served
without refetching; the external fetch is invoked on access exactly when
the key is absent from the cache (in particular, only after the janitor
sweep has removed a stale entry). -/
theorem c2_stale_served_until_swept (codec : Codec) (baseUrl : String)
    (fr : FetchOutcome) (now : Nat) (cache : Cache) (u : String)
    (index : Option JSNum) :
    (∀ e, cache u = some e →
      (handleSlice codec baseUrl fr now cache (some u) index).fetchInvoked
          = false ∧
      (handleSlice codec baseUrl fr now cache (some u) index).buffer
          = some e.buffer) ∧
    (cache u = none →
      (handleSlice codec baseUrl fr now cache (some u) index).fetchInvoked
          = true) := by
  constructor
  · intro e hc
    rw [handleSlice_hit codec baseUrl fr now cache u e index hc]
    exact ⟨rfl, rfl⟩
  · intro hmiss
    cases fr with
    | failure msg =>
      rw [handleSlice_miss_failure codec baseUrl msg now cache u index hmiss]
    | success bytes cl =>
      rw [handleSlice_miss_success codec baseUrl bytes cl now cache u index
        hmiss]

/-- Witness for C2 amended: a stale entry is served; an absent key
triggers the fetch. -/
theorem c2_stale_served_until_swept_witness :
    (∀ e, testCache "u" = some e →
      (handleSlice testCodec "b" (.success [9] none) 300001 testCache
          (some "u") none).fetchInvoked = false ∧
      (handleSlice testCodec "b" (.success [9] none) 300001 testCache
          (some "u") none).buffer = some e.buffer) ∧
    (testCache "u" = none →
      (handleSlice testCodec "b" (.success [9] none) 300001 testCache
          (some "u") none).fetchInvoked = true) :=
  c2_stale_served_until_swept testCodec "b" (.success [9] none) 300001
    testCache "u" none

/-! ## Claim C8: idempotence on a shared cache entry -/

/-- C8: two requests for the same key served from the same cache entry
produce identical responses, independently of the request time and of
the fetch collaborator outcome: identical manifests (hence identical
`numSlices`, `originalWidth`, `originalHeight`), and identical encoded
bytes for the same slice index. -/
theorem c8_idempotent (codec : Codec) (baseUrl : String)
    (fr1 fr2 : FetchOutcome) (now1 now2 : Nat) (cache : Cache) (u : String)
    (e : CacheEntry) (hc : cache u = some e) :
    (handleSlice codec baseUrl fr1 now1 cache (some u) none).resp =
      (handleSlice codec baseUrl fr2 now2 cache (some u) none).resp ∧
    (∀ p : JSNum,
      (handleSlice codec baseUrl fr1 now1 cache (some u) (some p)).resp =
        (handleSlice codec baseUrl fr2 now2 cache (some u) (some p)).resp) := by
  constructor
  · rw [handleSlice_hit codec baseUrl fr1 now1 cache u e none hc,
      handleSlice_hit codec baseUrl fr2 now2 cache u e none hc]
  · intro p
    rw [handleSlice_hit codec baseUrl fr1 now1 cache u e (some p) hc,
      handleSlice_hit codec baseUrl fr2 now2 cache u e (some p) hc]

/-- Witness for C8 at a concrete entry, times 1000 and 200000, index 1. -/
theorem c8_idempotent_witness :
    (handleSlice testCodec "b" (.failure "down") 1000 testCache
        (some "u") none).resp =
      (handleSlice testCodec "b" (.success [9] none) 200000 testCache
        (some "u") none).resp ∧
    (∀ p : JSNum,
      (handleSlice testCodec "b" (.failure "down") 1000 testCache
          (some "u") (some p)).resp =
        (handleSlice testCodec "b" (.success [9] none) 200000 testCache
          (some "u") (some p)).resp) :=
  c8_idempotent testCodec "b" (.failure "down") (.success [9] none) 1000
    200000 testCache "u" ⟨[7, 7, 7], 0⟩ rfl

/-! ## Claim C6: fetch failure -/

/-- C6: when the external fetch errors or returns a non-success status,
the handler responds 500 with the error message and the cache is
unchanged for every key (no entry created or replaced). -/
theorem c6_fetch_failure (codec : Codec) (baseUrl : String) (msg : String)
    (now : Nat) (cache : Cache) (u : String) (index : Option JSNum)
    (hmiss : cache u = none) :
    (handleSlice codec baseUrl (.failure msg) now cache (some u) index).resp
        = .serverError msg ∧
    (handleSlice codec baseUrl (.failure msg) now cache (some u) index).cache
        = cache := by
  rw [handleSlice_miss_failure codec baseUrl msg now cache u index hmiss]
  exact ⟨rfl, rfl⟩

/-- Witness for C6 on the empty cache. -/
theorem c6_fetch_failure_witness :
    (handleSlice testCodec "b"
        (.failure "Failed to fetch image: Not Found (404)") 5 emptyCache
        (some "u") none).resp
      = .serverError "Failed to fetch image: Not Found (404)" ∧
    (handleSlice testCodec "b"
        (.failure "Failed to fetch image: Not Found (404)") 5 emptyCache
        (some "u") none).cache = emptyCache :=
  c6_fetch_failure testCodec "b" "Failed to fetch image: Not Found (404)" 5
    emptyCache "u" none rfl

/-! ## Claim C5: content-length mismatch is tolerated -/

/-- C5: when the fetch reports a content-length that differs from the
received buffer length, the operation does not fail: the warning is
logged, the buffer is stored, and the response is the same normal
(manifest or slice) response as if no content-length had been reported. -/
theorem c5_mismatch_tolerated (codec : Codec) (baseUrl : String)
    (now : Nat) (cache : Cache) (u : String) (bytes : ByteBuf) (n : Nat)
    (index : Option JSNum) (hmiss : cache u = none)
    (hn : n ≠ bytes.length) :
    (handleSlice codec baseUrl (.success bytes (some n)) now cache (some u)
        index).warned = true ∧
    (handleSlice codec baseUrl (.success bytes (some n)) now cache (some u)
        index).cache = cacheSet cache u ⟨bytes, now⟩ ∧
    (handleSlice codec baseUrl (.success bytes (some n)) now cache (some u)
        index).resp =
      (handleSlice codec baseUrl (.success bytes none) now cache (some u)
        index).resp := by
  rw [handleSlice_miss_success codec baseUrl bytes (some n) now cache u index
    hmiss, handleSlice_miss_success codec baseUrl bytes none now cache u index
    hmiss]
  refine ⟨?_, rfl, rfl⟩
  simp [contentLengthWarning, hn]

/-- Witness for C5: reported length 99, actual length 1. -/
theorem c5_mismatch_tolerated_witness :
    (handleSlice testCodec "b" (.success [9] (some 99)) 5 emptyCache
        (some "u") none).warned = true ∧
    (handleSlice testCodec "b" (.success [9] (some 99)) 5 emptyCache
        (some "u") none).cache = cacheSet emptyCache "u" ⟨[9], 5⟩ ∧
    (handleSlice testCodec "b" (.success [9] (some 99)) 5 emptyCache
        (some "u") none).resp =
      (handleSlice testCodec "b" (.success [9] none) 5 emptyCache
        (some "u") none).resp :=
  c5_mismatch_tolerated testCodec "b" 5 emptyCache "u" [9] 99 none rfl
    (by decide)

/-! ## Claim C10: a mismatched buffer is cached and re-served as-is -/

/-- C10: a fetch that completes with a content-length mismatch still
stores the received buffer under the key with the current timestamp, and
every subsequent request for that key is served from that same buffer
without re-fetching or re-validating it. -/
theorem c10_mismatch_cached (codec : Codec) (baseUrl : String)
    (fr2 : FetchOutcome) (now now2 : Nat) (cache : Cache) (u : String)
    (bytes : ByteBuf) (n : Nat) (index index2 : Option JSNum)
    (hmiss : cache u = none) (hn : n ≠ bytes.length) :
    (handleSlice codec baseUrl (.success bytes (some n)) now cache (some u)
        index).cache u = some ⟨bytes, now⟩ ∧
    (handleSlice codec baseUrl fr2 now2
        (handleSlice codec baseUrl (.success bytes (some n)) now cache
          (some u) index).cache (some u) index2).fetchInvoked = false ∧
    (handleSlice codec baseUrl fr2 now2
        (handleSlice codec baseUrl (.success bytes (some n)) now cache
          (some u) index).cache (some u) index2).buffer = some bytes := by
  rw [handleSlice_miss_success codec baseUrl bytes (some n) now cache u index
    hmiss]
  have hset : cacheSet cache u ⟨bytes, now⟩ u = some ⟨bytes, now⟩ := by
    simp [cacheSet]
  refine ⟨hset, ?_, ?_⟩ <;>
    rw [handleSlice_hit codec baseUrl fr2 now2
      (cacheSet cache u ⟨bytes, now⟩) u ⟨bytes, now⟩ index2 hset]

/-- Witness for C10: mismatched download stored and re-served. -/
theorem c10_mismatch_cached_witness :
    (handleSlice testCodec "b" (.success [9] (some 99)) 5 emptyCache
        (some "u") none).cache "u" = some ⟨[9], 5⟩ ∧
    (handleSlice testCodec "b" (.failure "down") 6
        (handleSlice testCodec "b" (.success [9] (some 99)) 5 emptyCache
          (some "u") none).cache (some "u") none).fetchInvoked = false ∧
    (handleSlice testCodec "b" (.failure "down") 6
        (handleSlice testCodec "b" (.success [9] (some 99)) 5 emptyCache
          (some "u") none).cache (some "u") none).buffer = some [9] :=
  c10_mismatch_cached testCodec "b" (.failure "down") 5 6 emptyCache "u"
    [9] 99 none none rfl (by decide)

/-! ## Claim C4: slice index bounds -/

theorem respond_out_of_bounds (codec : Codec) (baseUrl u : String)
    (buf : ByteBuf) (w h : Nat) (k : Int)
    (hm : codec.meta buf = some (w, h))
    (hk : (h : Int) ≤ k * (SLICE_HEIGHT : Int)) :
    respond codec baseUrl u buf (some (some k))
      = (.notFound outOfBoundsMsg, false) := by
  simp only [SLICE_HEIGHT, Nat.cast_ofNat] at hk
  simp only [respond, hm, jsMulNat, jsSubOf, jsMinNat, jsGeNat, Option.map,
    sharpExtract, SLICE_HEIGHT, Nat.cast_ofNat, decide_eq_true_eq]
  rw [if_pos hk]

theorem respond_last_slice (codec : Codec) (baseUrl u : String)
    (buf : ByteBuf) (w h : Nat)
    (hm : codec.meta buf = some (w, h)) (hw : 0 < w) (hh : 0 < h) :
    respond codec baseUrl u buf
        (some (some ((numSlices h SLICE_HEIGHT - 1 : Nat) : Int)))
      = (.okSlice (codec.extractEnc buf 0
            ((numSlices h SLICE_HEIGHT - 1) * SLICE_HEIGHT) w
            (h - (numSlices h SLICE_HEIGHT - 1) * SLICE_HEIGHT)), true) := by
  have hq := pred_numSlices_mul_lt h SLICE_HEIGHT hh (by decide)
  have hle := le_numSlices_mul h SLICE_HEIGHT hh (by decide)
  have hpos : 0 < numSlices h SLICE_HEIGHT := by
    rw [numSlices_eq_succ h SLICE_HEIGHT hh (by decide)]
    exact Nat.succ_pos _
  simp only [SLICE_HEIGHT] at hq hle hpos
  simp only [respond, hm, jsMulNat, jsSubOf, jsMinNat, jsGeNat, Option.map,
    sharpExtract, SLICE_HEIGHT, Nat.cast_ofNat, decide_eq_true_eq]
  generalize hqdef : numSlices h 1500 - 1 = q at hq hle hpos ⊢
  have hn : numSlices h 1500 = q + 1 := by omega
  rw [hn] at hle
  split_ifs with h1 h2
  · exact absurd h1 (by omega)
  · have e2 : (((q : Nat) : Int) * 1500).toNat = q * 1500 := by omega
    have e3 : (((w : Nat) : Int)).toNat = w := by omega
    have e4 : (min (1500 : Int)
          (((h : Nat) : Int) - ((q : Nat) : Int) * 1500)).toNat
        = h - q * 1500 := by omega
    rw [Prod.mk.injEq]
    refine ⟨?_, rfl⟩
    rw [Resp.okSlice.injEq]
    rw [e2, e3, e4]
    rfl
  · exact absurd (by refine ⟨?_, ?_, ?_, ?_, ?_, ?_⟩ <;> omega) h2

/-- C4: for an integer index `k`, if `y = k * SLICE_HEIGHT >= height`
the handler responds 404 `Slice index out of bounds` and performs no
extraction; the last index `numSlices - 1` succeeds and the extracted
band has height `height - (numSlices - 1) * SLICE_HEIGHT`. -/
theorem c4_bounds (codec : Codec) (baseUrl : String) (fr : FetchOutcome)
    (now : Nat) (cache : Cache) (u : String) (e : CacheEntry) (w h : Nat)
    (hc : cache u = some e) (hm : codec.meta e.buffer = some (w, h))
    (hw : 0 < w) (hh : 0 < h) :
    (∀ k : Int, (h : Int) ≤ k * (SLICE_HEIGHT : Int) →
      (handleSlice codec baseUrl fr now cache (some u) (some (some k))).resp
          = .notFound outOfBoundsMsg ∧
      (handleSlice codec baseUrl fr now cache (some u)
          (some (some k))).extractInvoked = false) ∧
    (handleSlice codec baseUrl fr now cache (some u)
        (some (some ((numSlices h SLICE_HEIGHT - 1 : Nat) : Int)))).resp
      = .okSlice (codec.extractEnc e.buffer 0
          ((numSlices h SLICE_HEIGHT - 1) * SLICE_HEIGHT) w
          (h - (numSlices h SLICE_HEIGHT - 1) * SLICE_HEIGHT)) := by
  constructor
  · intro k hk
    rw [handleSlice_hit codec baseUrl fr now cache u e (some (some k)) hc]
    constructor
    · show (respond codec baseUrl u e.buffer (some (some k))).1 = _
      rw [respond_out_of_bounds codec baseUrl u e.buffer w h k hm hk]
    · show (respond codec baseUrl u e.buffer (some (some k))).2 = false
      rw [respond_out_of_bounds codec baseUrl u e.buffer w h k hm hk]
  · rw [handleSlice_hit codec baseUrl fr now cache u e _ hc]
    show (respond codec baseUrl u e.buffer _).1 = _
    rw [respond_last_slice codec baseUrl u e.buffer w h hm hw hh]

/-- Witness for C4 on a 800 x 3200 image: index 3 is out of bounds,
index `numSlices - 1 = 2` extracts the band at offset 3000 of height 200. -/
theorem c4_bounds_witness :
    ((handleSlice testCodec "b" (.failure "down") 1 testCache (some "u")
        (some (some 3))).resp = .notFound outOfBoundsMsg ∧
      (handleSlice testCodec "b" (.failure "down") 1 testCache (some "u")
        (some (some 3))).extractInvoked = false) ∧
    (handleSlice testCodec "b" (.failure "down") 1 testCache (some "u")
        (some (some ((numSlices 3200 SLICE_HEIGHT - 1 : Nat) : Int)))).resp
      = .okSlice (testCodec.extractEnc [7, 7, 7] 0
          ((numSlices 3200 SLICE_HEIGHT - 1) * SLICE_HEIGHT) 800
          (3200 - (numSlices 3200 SLICE_HEIGHT - 1) * SLICE_HEIGHT)) :=
  ⟨(c4_bounds testCodec "b" (.failure "down") 1 testCache "u" ⟨[7, 7, 7], 0⟩
      800 3200 rfl rfl (by decide) (by decide)).1 3 (by decide),
    (c4_bounds testCodec "b" (.failure "down") 1 testCache "u" ⟨[7, 7, 7], 0⟩
      800 3200 rfl rfl (by decide) (by decide)).2⟩

/-! ## Claim C9: non-numeric or negative index -/

theorem respond_nan_index (codec : Codec) (baseUrl u : String)
    (buf : ByteBuf) (w h : Nat) (hm : codec.meta buf = some (w, h)) :
    respond codec baseUrl u buf (some none)
      = (.serverError extractAreaMsg, true) := by
  simp [respond, hm, jsMulNat, jsSubOf, jsMinNat, jsGeNat, sharpExtract]

theorem respond_negative_index (codec : Codec) (baseUrl u : String)
    (buf : ByteBuf) (w h : Nat) (k : Int)
    (hm : codec.meta buf = some (w, h)) (hh : 0 < h) (hk : k < 0) :
    respond codec baseUrl u buf (some (some k))
      = (.serverError extractAreaMsg, true) := by
  simp only [respond, hm, jsMulNat, jsSubOf, jsMinNat, jsGeNat, Option.map,
    sharpExtract, SLICE_HEIGHT, Nat.cast_ofNat, decide_eq_true_eq]
  split_ifs with h1 h2
  · exact absurd h1 (by omega)
  · exact absurd h2.2.1 (by omega)
  · rfl

/-- C9: when the `index` query value parses to `NaN` or to a negative
integer, the out-of-bounds check `y >= height` is false, so the handler
does not return the 404 out-of-bounds response; it proceeds to the
extract call with an invalid top offset, which rejects, and the request
fails through the generic 500 path. -/
theorem c9_invalid_index (codec : Codec) (baseUrl : String)
    (fr : FetchOutcome) (now : Nat) (cache : Cache) (u : String)
    (e : CacheEntry) (w h : Nat) (p : JSNum)
    (hc : cache u = some e) (hm : codec.meta e.buffer = some (w, h))
    (hh : 0 < h)
    (hp : p = none ∨ ∃ k : Int, p = some k ∧ k < 0) :
    (handleSlice codec baseUrl fr now cache (some u) (some p)).resp
        = .serverError extractAreaMsg ∧
    (handleSlice codec baseUrl fr now cache (some u) (some p)).resp
        ≠ .notFound outOfBoundsMsg ∧
    (handleSlice codec baseUrl fr now cache (some u) (some p)).extractInvoked
        = true := by
  rw [handleSlice_hit codec baseUrl fr now cache u e (some p) hc]
  have key : respond codec baseUrl u e.buffer (some p)
      = (.serverError extractAreaMsg, true) := by
    cases hp with
    | inl hnan =>
      subst hnan
      exact respond_nan_index codec baseUrl u e.buffer w h hm
    | inr hneg =>
      obtain ⟨k, rfl, hkneg⟩ := hneg
      exact respond_negative_index codec baseUrl u e.buffer w h k hm hh hkneg
  refine ⟨?_, ?_, ?_⟩
  · show (respond codec baseUrl u e.buffer (some p)).1 = _
    rw [key]
  · show (respond codec baseUrl u e.buffer (some p)).1 ≠ _
    rw [key]
    intro habs
    cases habs
  · show (respond codec baseUrl u e.buffer (some p)).2 = true
    rw [key]

/-- Witness for C9 at parsed index `-1`. -/
theorem c9_invalid_index_witness :
    (handleSlice testCodec "b" (.failure "down") 1 testCache (some "u")
        (some (some (-1)))).resp = .serverError extractAreaMsg ∧
    (handleSlice testCodec "b" (.failure "down") 1 testCache (some "u")
        (some (some (-1)))).resp ≠ .notFound outOfBoundsMsg ∧
    (handleSlice testCodec "b" (.failure "down") 1 testCache (some "u")
        (some (some (-1)))).extractInvoked = true :=
  c9_invalid_index testCodec "b" (.failure "down") 1 testCache "u"
    ⟨[7, 7, 7], 0⟩ 800 3200 (some (-1)) rfl rfl (by decide)
    (Or.inr ⟨-1, rfl, by decide⟩)

end MangaSlicer
